import Mathlib

set_option maxRecDepth 16384

/-
  Verification of the actionbook bridge subsystem (packages/actionbook-rs).

  Shallow embedding of:
  - src/browser/extension_bridge.rs : the WebSocket bridge router state
    (BridgeState), its handlers for extension and cli clients, modelled as an
    event-step function over the shared mutex-protected state.  Each locked
    critical section of the Rust code is one atomic step here.
  - src/browser/cdp_pipe.rs : read_null_terminated_response and
    parse_load_extension_response.
  - src/browser/cdp_http.rs : find_any_extension_service_worker.

  JSON values (serde_json::Value) are modelled by an inductive `Json` whose
  objects are key-sorted association lists (the serde_json default object map is
  a BTreeMap with keys in ascending order).  JSON arrays are not needed by any
  modelled code path and are omitted.
-/

namespace Actionbook

/-- Model of serde_json::Value as used by the bridge and the CDP clients.
Objects are association lists; the construction sites below keep keys in
ascending order, matching the BTreeMap-backed serde_json objects. -/
inductive Json where
  | null : Json
  | bool : Bool → Json
  | num : Int → Json
  | str : String → Json
  | obj : List (String × Json) → Json

/-- Lookup of a key in the field list of an object (serde_json Map::get). -/
def lookupField : List (String × Json) → String → Option Json
  | [], _ => none
  | (k1, v) :: rest, k => if k1 = k then some v else lookupField rest k

/-- Value::get(key): some value for objects that contain the key, none
otherwise (and always none on non-objects). -/
def Json.get : Json → String → Option Json
  | .obj fields, k => lookupField fields k
  | _, _ => none

/-- Value::as_str(). -/
def Json.asStr : Json → Option String
  | .str s => some s
  | _ => none

/-- Value::as_u64(): integers in the u64 range only. -/
def Json.asU64 : Json → Option Nat
  | .num n => if 0 ≤ n ∧ n < 2 ^ 64 then some n.toNat else none
  | _ => none

/-- Insertion into a key-sorted field list: replaces the binding when the key
is present, inserts at the sorted position otherwise (BTreeMap::insert as
performed by the serde_json IndexMut on object values). -/
def setFieldList : List (String × Json) → String → Json → List (String × Json)
  | [], k, v => [(k, v)]
  | (k1, v1) :: rest, k, v =>
    if k = k1 then (k, v) :: rest
    else if k < k1 then (k, v) :: (k1, v1) :: rest
    else (k1, v1) :: setFieldList rest k v

/-- resp[key] = v on an object value (extension_bridge.rs line 309).  On a
non-object serde_json panics; routed replies are always objects (they carried
a numeric "id"), so that path is unreachable and left as the identity. -/
def Json.setField : Json → String → Json → Json
  | .obj fields, k, v => .obj (setFieldList fields k v)
  | j, _, _ => j

/-- Shared state for the bridge server (extension_bridge.rs, struct
BridgeState).  The mpsc sender to the extension is identified by the number of
the extension client that installed it; the oneshot reply senders in `pending`
are identified by the number of the waiting caller session. -/
structure BridgeState where
  extension_tx : Option Nat
  pending : List (Nat × Nat)
  next_id : Nat

/-- BridgeState::new(). -/
def initialBridgeState : BridgeState :=
  { extension_tx := none, pending := [], next_id := 1 }

/-- HashMap::get on the pending map. -/
def lookupPending : List (Nat × Nat) → Nat → Option Nat
  | [], _ => none
  | (r, sess) :: rest, rid => if r = rid then some sess else lookupPending rest rid

/-- HashMap::remove on the pending map. -/
def removePending (rid : Nat) (p : List (Nat × Nat)) : List (Nat × Nat) :=
  p.filter (fun e => e.1 != rid)

/-- HashMap::insert on the pending map. -/
def insertPending (rid sess : Nat) (p : List (Nat × Nat)) : List (Nat × Nat) :=
  (rid, sess) :: removePending rid p

/-- first_msg.get("id").cloned().unwrap_or(json!(0)) — the caller id used for
every frame the bridge sends back to a cli client
(extension_bridge.rs lines 276 and 300-303). -/
def cliIdOf (msg : Json) : Json :=
  (Json.get msg "id").getD (Json.num 0)

/-- json!({"id": cid, "error": {"code": -32000, "message": m}}) with the keys
in the sorted serde_json object order. -/
def errorFrame (cid : Json) (message : String) : Json :=
  Json.obj [("error", Json.obj [("code", Json.num (-32000)),
                                ("message", Json.str message)]),
            ("id", cid)]

/-- Error frame of the extension-missing branch (lines 275-278). -/
def notConnectedFrame (cid : Json) : Json :=
  errorFrame cid "Extension not connected"

/-- Error frame of the timeout branch (lines 328-331). -/
def timeoutFrame (cid : Json) : Json :=
  errorFrame cid "Extension command timed out (30s)"

/-- Error frame of the dropped-reply-sender branch (lines 316-319). -/
def connLostFrame (cid : Json) : Json :=
  errorFrame cid "Extension connection lost"

/-- Synthetic reply sent to every drained waiter when the read loop of an extension client
ends (lines 231-237). -/
def disconnectedFrame : Json :=
  errorFrame (Json.num 0) "Extension disconnected"

/-- json!({"id": request_id, "method": method, "params": params}) forwarded to
the extension (lines 288-292), with method and params extracted as in lines
255-262. -/
def cmdFrame (rid : Nat) (msg : Json) : Json :=
  Json.obj [("id", Json.num (Int.ofNat rid)),
            ("method", Json.str (((Json.get msg "method").bind Json.asStr).getD "")),
            ("params", (Json.get msg "params").getD Json.null)]

/-- Observable effects of one atomic step of the bridge. -/
inductive Output where
  | routed (sess : Nat) (frame : Json)
  | sent (sess : Nat) (frame : Json)
  | toExt (frame : Json)

/-- The atomic critical sections of extension_bridge.rs, as events on the
shared state:
- extConnect c : extension client c stores its sender (lines 176-179);
- extFrame f   : the extension read loop routes one parsed text frame
                 (lines 196-207);
- extClose c   : the read loop of extension client c ended; drain pending with the
                 synthetic disconnect reply and clear the channel
                 (lines 229-239) — the code does not check whether c still
                 owns the current channel;
- cliFirst sess msg : the locked admission section of handle_cli_client
                 (lines 270-297);
- cliTimeout sess rid msg : the timeout branch of the session sess whose
                 bridge-assigned id is rid (lines 322-333). -/
inductive BridgeEvent where
  | extConnect (c : Nat)
  | extFrame (frame : Json)
  | extClose (c : Nat)
  | cliFirst (sess : Nat) (msg : Json)
  | cliTimeout (sess : Nat) (rid : Nat) (msg : Json)

/-- The locked section of handle_cli_client (lines 270-297): if no extension
channel exists, send the not-connected error and stop; otherwise allocate
request_id = next_id, bump next_id, insert the pending entry and enqueue the
rewritten command to the extension. -/
def cliAdmitCore (sess : Nat) (msg : Json) (s : BridgeState) : BridgeState × List Output :=
  match s.extension_tx with
  | none => (s, [Output.sent sess (notConnectedFrame (cliIdOf msg))])
  | some _ =>
    ({ extension_tx := s.extension_tx,
       pending := insertPending s.next_id sess s.pending,
       next_id := s.next_id + 1 },
     [Output.toExt (cmdFrame s.next_id msg)])

/-- One atomic step of the bridge state (see BridgeEvent). -/
def applyEvent (s : BridgeState) : BridgeEvent → BridgeState × List Output
  | .extConnect c => ({ s with extension_tx := some c }, [])
  | .extFrame frame =>
    match (Json.get frame "id").bind Json.asU64 with
    | some rid =>
      match lookupPending s.pending rid with
      | some sess => ({ s with pending := removePending rid s.pending },
                      [Output.routed sess frame])
      | none => (s, [])
    | none => (s, [])
  | .extClose _ =>
    ({ extension_tx := none, pending := [], next_id := s.next_id },
     s.pending.map (fun e => Output.routed e.2 disconnectedFrame))
  | .cliFirst sess msg => cliAdmitCore sess msg s
  | .cliTimeout sess rid msg =>
    ({ s with pending := removePending rid s.pending },
     [Output.sent sess (timeoutFrame (cliIdOf msg))])

/-- Run a list of events, keeping only the state. -/
def runState (s : BridgeState) : List BridgeEvent → BridgeState
  | [] => s
  | e :: es => runState (applyEvent s e).1 es

/-- RequestIds consumed along a trace: next_id advances exactly when a cli
request is admitted with an extension channel present, and the id handed out
is the old next_id (extension_bridge.rs lines 283-284). -/
def allocatedIds : BridgeState → List BridgeEvent → List Nat
  | _, [] => []
  | s, e :: es =>
    (if s.next_id < ((applyEvent s e).1).next_id then [s.next_id] else [])
      ++ allocatedIds (applyEvent s e).1 es

/-- The cli first frame of the ping scenario of the spec: type cli, id 7, method
Extension.ping, empty params, keys in sorted serde_json order. -/
def cliPingMsg : Json :=
  Json.obj [("id", Json.num 7), ("method", Json.str "Extension.ping"),
            ("params", Json.obj []), ("type", Json.str "cli")]

/-- Rewrite of the reply id to the original caller id:
resp["id"] = cli_id (extension_bridge.rs line 309). -/
def rewriteReplyId (resp : Json) (cliId : Json) : Json :=
  Json.setField resp "id" cliId

/-! ### cdp_pipe.rs -/

/-- MAX_PIPE_RESPONSE_SIZE (cdp_pipe.rs line 185). -/
def MAX_PIPE_RESPONSE_SIZE : Nat := 1048576

/-- Failure cases of the byte loop of read_null_terminated_response.  The decode
and parse stages that follow the loop are modelled separately
(parse_load_extension_response works on the parsed Json value). -/
inductive PipeReadError where
  | closed
  | tooLarge

/-- The byte loop of read_null_terminated_response (cdp_pipe.rs lines
191-219) over the incoming byte stream: read one byte at a time; stop at the
first NUL; fail once the buffer already holds MAX_PIPE_RESPONSE_SIZE bytes and
another non-NUL byte arrives; end of stream before a NUL is the closed error.
Returns the accumulated pre-NUL bytes and the unread remainder. -/
def readNulLoop (buf : List Nat) : List Nat → Except PipeReadError (List Nat × List Nat)
  | [] => .error .closed
  | b :: rest =>
    if b = 0 then .ok (buf, rest)
    else if MAX_PIPE_RESPONSE_SIZE ≤ buf.length then .error .tooLarge
    else readNulLoop (buf ++ [b]) rest

/-- Entry point of the byte loop with the empty buffer (cdp_pipe.rs
line 191). -/
def read_null_terminated_bytes (input : List Nat) : Except PipeReadError (List Nat × List Nat) :=
  readNulLoop [] input

/-- parse_load_extension_response (cdp_pipe.rs lines 147-179), over the
already-parsed Json value together with the raw response string it was parsed
from (the raw string is only used in the missing-result.id diagnostic). -/
def parse_load_extension_response (response : Json) (response_str : String) : Except String String :=
  match Json.get response "error" with
  | some error =>
    .error ("CDP Extensions.loadUnpacked failed: " ++
      (((Json.get error "message").bind Json.asStr).getD "unknown error"))
  | none =>
    match ((Json.get response "result").bind (fun r => Json.get r "id")).bind Json.asStr with
    | some extId => .ok extId
    | none => .error ("CDP response missing result.id: " ++ response_str)

/-! ### cdp_http.rs -/

/-- A target entry from /json/list (cdp_http.rs, struct CdpTarget). -/
structure CdpTarget where
  type : String
  url : String
  web_socket_debugger_url : String

/-- ACTIONBOOK_SW_FILENAME (cdp_http.rs line 55). -/
def ACTIONBOOK_SW_FILENAME : String := "background.js"

/-- str::starts_with(pat) on valid UTF-8, as a character-prefix test. -/
def strStartsWith (s pat : String) : Bool :=
  pat.data.isPrefixOf s.data

/-- str::ends_with(pat) on valid UTF-8, as a character-suffix test. -/
def strEndsWith (s pat : String) : Bool :=
  pat.data.reverse.isPrefixOf s.data.reverse

/-- Error of find_any_extension_service_worker when no matching target exists
(cdp_http.rs lines 92-98; the Rust string continuation joins the two
lines). -/
def noSwTargetError : String :=
  "No Actionbook extension service_worker target found via CDP. Looking for a service_worker with background.js"

/-- The filter closure of find_any_extension_service_worker (cdp_http.rs
lines 85-89): a service_worker target whose url starts with the
chrome-extension scheme and ends with the /background.js suffix. -/
def isActionbookSw (t : CdpTarget) : Bool :=
  t.type == "service_worker"
  && strStartsWith t.url "chrome-extension://"
  && strEndsWith t.url ("/" ++ ACTIONBOOK_SW_FILENAME)

/-- The selection core of find_any_extension_service_worker (cdp_http.rs
lines 82-98): first target satisfying isActionbookSw; its
webSocketDebuggerUrl must be non-empty, otherwise (and when nothing matches)
the typed error is returned. -/
def find_any_extension_service_worker (targets : List CdpTarget) :
    Except String (String × String) :=
  match targets.find? isActionbookSw with
  | some t =>
    if t.web_socket_debugger_url != "" then .ok (t.web_socket_debugger_url, t.url)
    else .error noSwTargetError
  | none => .error noSwTargetError

/-! ### Session-token verification (spec-modelled)

The callers under src (commands/extension.rs line 112 and
isolated_extension.rs line 126) invoke extension_bridge::serve(port, token)
and extension_bridge::serve_with_shutdown(port, token, shutdown, strict)
together with generate_token and the token/pid record helpers, but the bundled
extension_bridge.rs only contains a tokenless one-argument serve: the
token-verifying bridge implementation is code of this repository that is not
under src.  Its first-frame checks are therefore modelled from the spec. -/

/-- Modelled from the spec: the SessionToken is compared byte-for-byte in
constant time — the length check and a fold over all character pairs that does
not short-circuit at the first mismatch.  Models the constant-time compare of
the missing serve_with_shutdown handlers. -/
def constantTimeEq (a b : String) : Bool :=
  (a.data.length == b.data.length)
    && (a.data.zip b.data).foldl (fun acc p => acc && (p.1 == p.2)) true

/-- Modelled from the spec: the first frame of an extension client is
accepted exactly when its token field is a string equal to the current
SessionToken; a missing or non-string token is rejected.  Models the token
check of the missing handle_extension_client of serve_with_shutdown. -/
def verifyExtensionFirstFrame (token : String) (frame : Json) : Bool :=
  match (Json.get frame "token").bind Json.asStr with
  | some t => constantTimeEq t token
  | none => false

/-- Modelled from the spec: admission of an extension client — the channel is
installed only when the token of the first frame matches; otherwise the state is
unchanged and the client is rejected (the Bool result). -/
def extHandleFirst (token : String) (c : Nat) (frame : Json) (s : BridgeState) :
    BridgeState × Bool :=
  if verifyExtensionFirstFrame token frame then
    ({ s with extension_tx := some c }, true)
  else (s, false)

/-- Modelled from the spec: a cli first frame passes authentication when its
token matches; with no token field it passes only when strict mode is off. -/
def checkCliAuth (token : String) (strict : Bool) (msg : Json) : Bool :=
  match (Json.get msg "token").bind Json.asStr with
  | some t => constantTimeEq t token
  | none => !strict

/-- Modelled from the spec: the cli first-frame handler of the missing
serve_with_shutdown — verify the token first; on failure the result is none
(an AuthError is reported to the caller and the session ends, nothing is
forwarded); on success the admission core of the bundled handle_cli_client
runs. -/
def cliHandleFirst (token : String) (strict : Bool) (sess : Nat) (msg : Json)
    (s : BridgeState) : Option (BridgeState × List Output) :=
  if checkCliAuth token strict msg then some (cliAdmitCore sess msg s)
  else none

/-! ### Helper lemmas -/

theorem lookupPending_removePending (p : List (Nat × Nat)) (rid : Nat) :
    lookupPending (removePending rid p) rid = none := by
  induction p with
  | nil => rfl
  | cons head tl ih =>
    obtain ⟨r, sess⟩ := head
    simp only [removePending, List.filter_cons] at ih ⊢
    by_cases h : r = rid
    · simp only [h, bne_self_eq_false, cond_false]
      exact ih
    · have hb : ((r, sess).1 != rid) = true := by simpa using h
      simp only [hb, cond_true, lookupPending, if_neg h]
      exact ih

theorem get_some_obj (j : Json) (k : String) (v : Json) (h : Json.get j k = some v) :
    ∃ fields, j = Json.obj fields := by
  cases j with
  | obj fields => exact ⟨fields, rfl⟩
  | null => simp [Json.get] at h
  | bool b => simp [Json.get] at h
  | num n => simp [Json.get] at h
  | str s => simp [Json.get] at h

theorem lookupField_setFieldList_self (fields : List (String × Json)) (k : String) (v : Json) :
    lookupField (setFieldList fields k v) k = some v := by
  induction fields with
  | nil => simp [setFieldList, lookupField]
  | cons head tl ih =>
    obtain ⟨k1, v1⟩ := head
    simp only [setFieldList]
    by_cases h1 : k = k1
    · rw [if_pos h1]
      simp [lookupField]
    · rw [if_neg h1]
      by_cases h2 : k < k1
      · rw [if_pos h2]
        simp [lookupField]
      · rw [if_neg h2]
        have h3 : ¬ k1 = k := fun hh => h1 hh.symm
        simp only [lookupField, if_neg h3]
        exact ih

theorem lookupField_setFieldList_other (fields : List (String × Json)) (k : String)
    (v : Json) (k2 : String) (hne : k2 ≠ k) :
    lookupField (setFieldList fields k v) k2 = lookupField fields k2 := by
  have h0 : ¬ k = k2 := fun hh => hne hh.symm
  induction fields with
  | nil => simp [setFieldList, lookupField, h0]
  | cons head tl ih =>
    obtain ⟨k1, v1⟩ := head
    simp only [setFieldList]
    by_cases h1 : k = k1
    · rw [if_pos h1]
      subst h1
      simp only [lookupField, if_neg h0]
    · rw [if_neg h1]
      by_cases h2 : k < k1
      · rw [if_pos h2]
        simp only [lookupField, if_neg h0]
      · rw [if_neg h2]
        simp only [lookupField]
        by_cases h3 : k1 = k2
        · rw [if_pos h3, if_pos h3]
        · rw [if_neg h3, if_neg h3]
          exact ih

theorem nextId_mono (s : BridgeState) (e : BridgeEvent) :
    s.next_id ≤ ((applyEvent s e).1).next_id := by
  cases e with
  | extConnect c => exact Nat.le_refl _
  | extFrame frame =>
    simp only [applyEvent]
    cases h1 : (Json.get frame "id").bind Json.asU64 with
    | none => simp [h1]
    | some rid =>
      cases h2 : lookupPending s.pending rid with
      | none => simp [h1, h2]
      | some sess => simp [h1, h2]
  | extClose c => exact Nat.le_refl _
  | cliFirst sess msg =>
    simp only [applyEvent, cliAdmitCore]
    cases h3 : s.extension_tx with
    | none => simp [h3]
    | some c => simp [h3]
  | cliTimeout sess rid msg => exact Nat.le_refl _

theorem allocatedIds_lb (es : List BridgeEvent) (s : BridgeState) (x : Nat)
    (hx : x ∈ allocatedIds s es) : s.next_id ≤ x := by
  induction es generalizing s with
  | nil => simp [allocatedIds] at hx
  | cons e es ih =>
    simp only [allocatedIds, List.mem_append] at hx
    rcases hx with h | h
    · split at h
      · simp at h
        omega
      · simp at h
    · exact Nat.le_trans (nextId_mono s e) (ih _ h)

theorem allocatedIds_pairwise (es : List BridgeEvent) (s : BridgeState) :
    (allocatedIds s es).Pairwise (fun a b => a < b) := by
  induction es generalizing s with
  | nil => simp [allocatedIds]
  | cons e es ih =>
    simp only [allocatedIds]
    split
    · rename_i hlt
      simp only [List.singleton_append, List.pairwise_cons]
      exact ⟨fun y hy => Nat.lt_of_lt_of_le hlt (allocatedIds_lb es _ y hy), ih _⟩
    · simpa using ih _

theorem readNulLoop_tooLarge_iff (input : List Nat) (buf : List Nat)
    (h : buf.length ≤ MAX_PIPE_RESPONSE_SIZE) :
    readNulLoop buf input = .error .tooLarge
      ↔ MAX_PIPE_RESPONSE_SIZE < buf.length + (input.takeWhile (fun b => b != 0)).length := by
  induction input generalizing buf with
  | nil =>
    simp only [readNulLoop, List.takeWhile_nil, List.length_nil, Nat.add_zero]
    constructor
    · intro hc
      exact absurd hc (by simp)
    · intro hc
      omega
  | cons b rest ih =>
    by_cases hb : b = 0
    · subst hb
      simp only [readNulLoop, if_pos rfl, List.takeWhile_cons]
      simp only [bne_self_eq_false, Bool.false_eq_true, if_false, List.length_nil, Nat.add_zero]
      constructor
      · intro hc
        exact absurd hc (by simp)
      · intro hc
        omega
    · have hbne : (b != 0) = true := by simpa using hb
      simp only [readNulLoop, if_neg hb, List.takeWhile_cons, hbne, if_true, List.length_cons]
      by_cases hlen : MAX_PIPE_RESPONSE_SIZE ≤ buf.length
      · rw [if_pos hlen]
        have heq : buf.length = MAX_PIPE_RESPONSE_SIZE := Nat.le_antisymm h hlen
        constructor
        · intro _
          omega
        · intro _
          rfl
      · rw [if_neg hlen]
        have h2 : (buf ++ [b]).length ≤ MAX_PIPE_RESPONSE_SIZE := by
          simp only [List.length_append, List.length_cons, List.length_nil]
          omega
        rw [ih _ h2]
        simp only [List.length_append, List.length_cons, List.length_nil]
        omega

theorem readNulLoop_ok_length (input buf content rest : List Nat)
    (h : buf.length ≤ MAX_PIPE_RESPONSE_SIZE)
    (hok : readNulLoop buf input = .ok (content, rest)) :
    content.length ≤ MAX_PIPE_RESPONSE_SIZE := by
  induction input generalizing buf with
  | nil => simp [readNulLoop] at hok
  | cons b tl ih =>
    simp only [readNulLoop] at hok
    split at hok
    · simp only [Except.ok.injEq, Prod.mk.injEq] at hok
      rw [← hok.1]
      exact h
    · split at hok
      · simp at hok
      · rename_i hlen
        refine ih (buf ++ [b]) ?_ hok
        simp only [List.length_append, List.length_cons, List.length_nil]
        omega

theorem foldl_and_all (f : Char × Char → Bool) (l : List (Char × Char)) (acc : Bool) :
    l.foldl (fun a p => a && f p) acc = (acc && l.all f) := by
  induction l generalizing acc with
  | nil => simp
  | cons x xs ih =>
    simp only [List.foldl_cons, List.all_cons, ih, Bool.and_assoc]

theorem zip_self_all (l : List Char) : (l.zip l).all (fun p => p.1 == p.2) = true := by
  induction l with
  | nil => rfl
  | cons a t ih => simpa using ih

theorem zip_all_eq (l1 : List Char) (l2 : List Char) (hlen : l1.length = l2.length)
    (hall : (l1.zip l2).all (fun p => p.1 == p.2) = true) : l1 = l2 := by
  induction l1 generalizing l2 with
  | nil =>
    cases l2 with
    | nil => rfl
    | cons b t2 => simp at hlen
  | cons a t ih =>
    cases l2 with
    | nil => simp at hlen
    | cons b t2 =>
      simp only [List.zip_cons_cons, List.all_cons, Bool.and_eq_true, beq_iff_eq] at hall
      simp only [List.length_cons, Nat.add_right_cancel_iff] at hlen
      rw [hall.1, ih t2 hlen hall.2]

theorem constantTimeEq_iff (a b : String) : constantTimeEq a b = true ↔ a = b := by
  constructor
  · intro h
    unfold constantTimeEq at h
    rw [foldl_and_all] at h
    simp only [Bool.true_and, Bool.and_eq_true, beq_iff_eq] at h
    obtain ⟨hlen, hall⟩ := h
    have hdata : a.data = b.data := zip_all_eq _ _ hlen hall
    exact congrArg String.mk hdata
  · rintro rfl
    unfold constantTimeEq
    rw [foldl_and_all]
    simp [zip_self_all]

theorem get_some_of_bind_asU64 (resp : Json) (rid : Nat)
    (h : (Json.get resp "id").bind Json.asU64 = some rid) :
    ∃ j, Json.get resp "id" = some j := by
  cases hg : Json.get resp "id" with
  | none => rw [hg] at h; simp at h
  | some j => exact ⟨j, rfl⟩

theorem get_setField_id (resp cid : Json) (rid : Nat)
    (h : (Json.get resp "id").bind Json.asU64 = some rid) :
    Json.get (Json.setField resp "id" cid) "id" = some cid := by
  obtain ⟨j, hgj⟩ := get_some_of_bind_asU64 resp rid h
  obtain ⟨fields, rfl⟩ := get_some_obj resp "id" j hgj
  simp only [Json.setField, Json.get]
  exact lookupField_setFieldList_self fields "id" cid

theorem get_setField_other (resp cid : Json) (rid : Nat) (k : String)
    (h : (Json.get resp "id").bind Json.asU64 = some rid) (hk : k ≠ "id") :
    Json.get (Json.setField resp "id" cid) k = Json.get resp k := by
  obtain ⟨j, hgj⟩ := get_some_of_bind_asU64 resp rid h
  obtain ⟨fields, rfl⟩ := get_some_obj resp "id" j hgj
  simp only [Json.setField, Json.get]
  exact lookupField_setFieldList_other fields "id" cid k hk

/-! ### Claim theorems -/

/-- C1: for every WebSocket client admitted by the bridge, the first-frame
token is verified against the current SessionToken — an extension first frame
whose token does not match the SessionToken exactly (or is absent) is
rejected and the channel is not installed, an extension first frame whose
token matches exactly is admitted, and a cli first frame with no token in
strict mode results in an AuthError (none) with nothing forwarded to the
extension and the state unchanged. -/
theorem C1_first_frame_token_auth :
    (∀ (token : String) (c : Nat) (frame : Json) (t : String) (s : BridgeState),
        Json.get frame "token" = some (Json.str t) → t ≠ token →
        extHandleFirst token c frame s = (s, false))
    ∧ (∀ (token : String) (c : Nat) (frame : Json) (s : BridgeState),
        Json.get frame "token" = none →
        extHandleFirst token c frame s = (s, false))
    ∧ (∀ (token : String) (c : Nat) (frame : Json) (s : BridgeState),
        Json.get frame "token" = some (Json.str token) →
        extHandleFirst token c frame s = ({ s with extension_tx := some c }, true))
    ∧ (∀ (token : String) (sess : Nat) (msg : Json) (s : BridgeState),
        Json.get msg "token" = none →
        cliHandleFirst token true sess msg s = none) := by
  refine ⟨?_, ?_, ?_, ?_⟩
  · intro token c frame t s hget hne
    have hv : verifyExtensionFirstFrame token frame = false := by
      unfold verifyExtensionFirstFrame
      rw [hget]
      simp only [Option.some_bind, Json.asStr]
      cases hval : constantTimeEq t token with
      | false => rfl
      | true => exact absurd ((constantTimeEq_iff t token).mp hval) hne
    simp [extHandleFirst, hv]
  · intro token c frame s hget
    have hv : verifyExtensionFirstFrame token frame = false := by
      unfold verifyExtensionFirstFrame
      rw [hget]
      rfl
    simp [extHandleFirst, hv]
  · intro token c frame s hget
    have hv : verifyExtensionFirstFrame token frame = true := by
      unfold verifyExtensionFirstFrame
      rw [hget]
      simp only [Option.some_bind, Json.asStr]
      exact (constantTimeEq_iff token token).mpr rfl
    simp [extHandleFirst, hv]
  · intro token sess msg s hget
    simp [cliHandleFirst, checkCliAuth, hget]

/-- C1 witness: the concrete SessionToken abk_secret rejects an extension
first frame carrying abk_wrong, and a strict-mode cli ping frame with no
token field yields the AuthError outcome. -/
theorem C1_first_frame_token_auth_witness :
    extHandleFirst "abk_secret" 1
        (Json.obj [("token", Json.str "abk_wrong"), ("type", Json.str "extension")])
        initialBridgeState = (initialBridgeState, false)
    ∧ cliHandleFirst "abk_secret" true 7 cliPingMsg initialBridgeState = none := by
  constructor
  · exact C1_first_frame_token_auth.1 "abk_secret" 1
      (Json.obj [("token", Json.str "abk_wrong"), ("type", Json.str "extension")])
      "abk_wrong" initialBridgeState (by rfl) (by decide)
  · exact C1_first_frame_token_auth.2.2.2 "abk_secret" 7 cliPingMsg
      initialBridgeState (by rfl)

/-- C2 counterexample: the claim that a new extension client drains the pending
map of the old channel before replacing it is false on the code.  Trace A
(extension 1 connects, caller 10 is admitted, extension 2 connects): at the
replacement step the pending waiter (1, 10) is still present and no synthetic
reply is emitted.  Trace B (extension 1 connects, extension 2 connects,
caller 11 is admitted through the new channel, the socket of extension 1 closes):
the cleanup of the old client destroys the pending entry of the request routed
through the new channel — waiter 11 receives the synthetic disconnect reply —
and clears the new channel even though extension 2 never disconnected. -/
theorem C2_replacement_counterexample :
    runState initialBridgeState
        [BridgeEvent.extConnect 1, BridgeEvent.cliFirst 10 cliPingMsg]
      = { extension_tx := some 1, pending := [(1, 10)], next_id := 2 }
    ∧ (applyEvent { extension_tx := some 1, pending := [(1, 10)], next_id := 2 }
        (BridgeEvent.extConnect 2)).1.pending = [(1, 10)]
    ∧ (applyEvent { extension_tx := some 1, pending := [(1, 10)], next_id := 2 }
        (BridgeEvent.extConnect 2)).2 = []
    ∧ (applyEvent { extension_tx := some 1, pending := [(1, 10)], next_id := 2 }
        (BridgeEvent.extConnect 2)).1.extension_tx = some 2
    ∧ runState initialBridgeState
        [BridgeEvent.extConnect 1, BridgeEvent.extConnect 2, BridgeEvent.cliFirst 11 cliPingMsg]
      = { extension_tx := some 2, pending := [(1, 11)], next_id := 2 }
    ∧ (applyEvent { extension_tx := some 2, pending := [(1, 11)], next_id := 2 }
        (BridgeEvent.extClose 1)).1.extension_tx = none
    ∧ (applyEvent { extension_tx := some 2, pending := [(1, 11)], next_id := 2 }
        (BridgeEvent.extClose 1)).1.pending = []
    ∧ (applyEvent { extension_tx := some 2, pending := [(1, 11)], next_id := 2 }
        (BridgeEvent.extClose 1)).2 = [Output.routed 11 disconnectedFrame] := by
  exact ⟨rfl, rfl, rfl, rfl, rfl, rfl, rfl, rfl⟩

/-- C2 amended: installing a new extension channel replaces the previous one
immediately, leaving the pending map untouched and notifying no waiter; the
drain happens when the read loop of an extension client ends — that cleanup sends
the synthetic disconnect reply to every pending waiter, empties the pending
map and clears the extension channel unconditionally, regardless of whether
the closing client still owns the current channel. -/
theorem C2_drain_happens_on_socket_close (s : BridgeState) (c : Nat) :
    (applyEvent s (BridgeEvent.extConnect c)).1.pending = s.pending
    ∧ (applyEvent s (BridgeEvent.extConnect c)).2 = []
    ∧ (applyEvent s (BridgeEvent.extConnect c)).1.extension_tx = some c
    ∧ (applyEvent s (BridgeEvent.extClose c)).1.pending = []
    ∧ (applyEvent s (BridgeEvent.extClose c)).1.extension_tx = none
    ∧ (applyEvent s (BridgeEvent.extClose c)).2
        = s.pending.map (fun e => Output.routed e.2 disconnectedFrame) := by
  exact ⟨rfl, rfl, rfl, rfl, rfl, rfl⟩

/-- C3: the reply frame sent back to the caller carries the originally
submitted caller id, not the bridge-assigned RequestId — in general the
rewrite sets the id member to the caller id and leaves every other member
unchanged, and in the concrete scenario of the spec a caller id 7 with extension
reply id 42 and result pong receives id 7 and result pong. -/
theorem C3_reply_carries_caller_id :
    (∀ (msg resp cid : Json) (rid : Nat),
        Json.get msg "id" = some cid →
        (Json.get resp "id").bind Json.asU64 = some rid →
        Json.get (rewriteReplyId resp (cliIdOf msg)) "id" = some cid
        ∧ ∀ k, k ≠ "id" →
            Json.get (rewriteReplyId resp (cliIdOf msg)) k = Json.get resp k)
    ∧ rewriteReplyId (Json.obj [("id", Json.num 42), ("result", Json.str "pong")])
        (cliIdOf cliPingMsg)
      = Json.obj [("id", Json.num 7), ("result", Json.str "pong")] := by
  constructor
  · intro msg resp cid rid hmsg hresp
    have hcli : cliIdOf msg = cid := by simp [cliIdOf, hmsg]
    rw [hcli]
    exact ⟨get_setField_id resp cid rid hresp,
      fun k hk => get_setField_other resp cid rid k hresp hk⟩
  · rfl

/-- C3 witness: the general rewrite lemma applied at the concrete scenario
frames. -/
theorem C3_reply_carries_caller_id_witness :
    Json.get (rewriteReplyId
        (Json.obj [("id", Json.num 42), ("result", Json.str "pong")])
        (cliIdOf cliPingMsg)) "id" = some (Json.num 7) := by
  exact (C3_reply_carries_caller_id.1 cliPingMsg
    (Json.obj [("id", Json.num 42), ("result", Json.str "pong")])
    (Json.num 7) 42 (by rfl) (by rfl)).1

/-- C4: RequestId allocation is strictly increasing along every trace of
bridge events, hence no two caller sessions are ever assigned the same
RequestId; and completion of a request removes its pending entry — both the
reply path (a routed extension frame with that id) and the timeout path leave
no pending entry for the RequestId. -/
theorem C4_request_id_invariants :
    (∀ (s : BridgeState) (es : List BridgeEvent),
        (allocatedIds s es).Pairwise (fun a b => a < b)
        ∧ (allocatedIds s es).Nodup)
    ∧ (∀ (s : BridgeState) (frame : Json) (rid : Nat),
        (Json.get frame "id").bind Json.asU64 = some rid →
        lookupPending ((applyEvent s (BridgeEvent.extFrame frame)).1.pending) rid = none)
    ∧ (∀ (s : BridgeState) (sess rid : Nat) (msg : Json),
        lookupPending ((applyEvent s (BridgeEvent.cliTimeout sess rid msg)).1.pending) rid
          = none) := by
  refine ⟨?_, ?_, ?_⟩
  · intro s es
    exact ⟨allocatedIds_pairwise es s,
      (allocatedIds_pairwise es s).imp (fun h => Nat.ne_of_lt h)⟩
  · intro s frame rid hrid
    simp only [applyEvent, hrid]
    cases h2 : lookupPending s.pending rid with
    | none => simp [h2]
    | some sess => simp [h2, lookupPending_removePending]
  · intro s sess rid msg
    exact lookupPending_removePending s.pending rid

/-- C4 witness: routing a concrete extension reply with id 5 removes the
pending entry 5. -/
theorem C4_request_id_invariants_witness :
    lookupPending ((applyEvent
        { extension_tx := some 1, pending := [(5, 10)], next_id := 6 }
        (BridgeEvent.extFrame
          (Json.obj [("id", Json.num 5), ("result", Json.str "pong")]))).1.pending) 5
      = none := by
  exact C4_request_id_invariants.2.1
    { extension_tx := some 1, pending := [(5, 10)], next_id := 6 }
    (Json.obj [("id", Json.num 5), ("result", Json.str "pong")]) 5 (by rfl)

/-- C5: the timeout path removes the pending entry of the request and sends the
caller the error frame with the caller id, code -32000 and message
Extension command timed out (30s); afterwards the pending map has no entry
for that RequestId. -/
theorem C5_timeout_cleanup_and_reply (s : BridgeState) (sess rid : Nat) (msg : Json) :
    lookupPending ((applyEvent s (BridgeEvent.cliTimeout sess rid msg)).1.pending) rid = none
    ∧ (applyEvent s (BridgeEvent.cliTimeout sess rid msg)).2
        = [Output.sent sess (timeoutFrame (cliIdOf msg))]
    ∧ timeoutFrame (cliIdOf msg)
        = Json.obj [("error", Json.obj [("code", Json.num (-32000)),
            ("message", Json.str "Extension command timed out (30s)")]),
            ("id", cliIdOf msg)] := by
  exact ⟨lookupPending_removePending s.pending rid, rfl, rfl⟩

/-- C6: a cli first frame arriving while no ExtensionChannel exists gets the
Extension not connected error with the caller id; the state is unchanged
(no RequestId allocated, no pending entry) and nothing is enqueued to any
extension. -/
theorem C6_not_connected_reply (s : BridgeState) (sess : Nat) (msg : Json)
    (h : s.extension_tx = none) :
    applyEvent s (BridgeEvent.cliFirst sess msg)
        = (s, [Output.sent sess (notConnectedFrame (cliIdOf msg))])
    ∧ notConnectedFrame (cliIdOf msg)
        = Json.obj [("error", Json.obj [("code", Json.num (-32000)),
            ("message", Json.str "Extension not connected")]),
            ("id", cliIdOf msg)] := by
  constructor
  · simp [applyEvent, cliAdmitCore, h]
  · rfl

/-- C6 witness: the concrete ping with caller id 7 against the freshly
started bridge. -/
theorem C6_not_connected_reply_witness :
    applyEvent initialBridgeState (BridgeEvent.cliFirst 7 cliPingMsg)
        = (initialBridgeState, [Output.sent 7 (notConnectedFrame (Json.num 7))]) := by
  exact (C6_not_connected_reply initialBridgeState 7 cliPingMsg rfl).1

/-- C7: the pipe response reader raises the size error exactly when the
content before the first NUL exceeds MAX_PIPE_RESPONSE_SIZE = 1,048,576
bytes, and every successfully read pre-NUL content is at most that long, so
the buffer never grows beyond the bound. -/
theorem C7_pipe_size_limit (input : List Nat) :
    (read_null_terminated_bytes input = .error .tooLarge
      ↔ MAX_PIPE_RESPONSE_SIZE < (input.takeWhile (fun b => b != 0)).length)
    ∧ (∀ content rest, read_null_terminated_bytes input = .ok (content, rest) →
        content.length ≤ MAX_PIPE_RESPONSE_SIZE) := by
  constructor
  · have h := readNulLoop_tooLarge_iff input [] (by simp)
    simpa [read_null_terminated_bytes] using h
  · intro content rest hok
    exact readNulLoop_ok_length input [] content rest (by simp) hok

/-- C7 witness: the reader applied to the byte stream 65, NUL. -/
theorem C7_pipe_size_limit_witness :
    ([65] : List Nat).length ≤ MAX_PIPE_RESPONSE_SIZE := by
  exact (C7_pipe_size_limit [65, 0]).2 [65] [] (by rfl)

/-- C8: a parsed pipe load response containing error.message fails with the
ExtensionError carrying that message (in particular Extension not found);
otherwise a string result.id is returned as the extension id; a response with
no string result.id fails with the typed error whose text includes the raw
payload. -/
theorem C8_parse_load_response :
    (∀ (response e : Json) (m raw : String),
        Json.get response "error" = some e →
        Json.get e "message" = some (Json.str m) →
        parse_load_extension_response response raw
          = .error ("CDP Extensions.loadUnpacked failed: " ++ m))
    ∧ (∀ raw : String, parse_load_extension_response
          (Json.obj [("error", Json.obj [("code", Json.num (-32000)),
              ("message", Json.str "Extension not found")]), ("id", Json.num 1)]) raw
          = .error "CDP Extensions.loadUnpacked failed: Extension not found")
    ∧ (∀ (response r : Json) (extId raw : String),
        Json.get response "error" = none →
        Json.get response "result" = some r →
        Json.get r "id" = some (Json.str extId) →
        parse_load_extension_response response raw = .ok extId)
    ∧ (∀ (response : Json) (raw : String),
        Json.get response "error" = none →
        ((Json.get response "result").bind (fun r => Json.get r "id")).bind Json.asStr
          = none →
        parse_load_extension_response response raw
          = .error ("CDP response missing result.id: " ++ raw)) := by
  refine ⟨?_, ?_, ?_, ?_⟩
  · intro response e m raw h1 h2
    simp [parse_load_extension_response, h1, h2, Json.asStr]
  · intro raw
    rfl
  · intro response r extId raw h1 h2 h3
    simp [parse_load_extension_response, h1, h2, h3, Json.asStr]
  · intro response raw h1 h2
    simp [parse_load_extension_response, h1, h2]

/-- C8 witness: a concrete success response yields its result.id. -/
theorem C8_parse_load_response_witness :
    parse_load_extension_response
        (Json.obj [("id", Json.num 1),
                   ("result", Json.obj [("id", Json.str "abcdef123456")])]) "raw"
      = .ok "abcdef123456" := by
  exact C8_parse_load_response.2.2.1
    (Json.obj [("id", Json.num 1),
               ("result", Json.obj [("id", Json.str "abcdef123456")])])
    (Json.obj [("id", Json.str "abcdef123456")]) "abcdef123456" "raw"
    (by rfl) (by rfl) (by rfl)

/-- C9: the filename-based background-target lookup only ever selects a
listed entry of type service_worker whose url starts with the
chrome-extension scheme and ends with /background.js and whose debugger url
is non-empty; whenever no listed entry satisfies the filter — in particular
for the empty listing — it returns the ExtensionError whose message begins
No Actionbook extension service_worker target found. -/
theorem C9_find_background_by_filename :
    (∀ (targets : List CdpTarget) (ws u : String),
        find_any_extension_service_worker targets = .ok (ws, u) →
        ∃ t, t ∈ targets ∧ t.type = "service_worker"
          ∧ strStartsWith t.url "chrome-extension://" = true
          ∧ strEndsWith t.url ("/" ++ ACTIONBOOK_SW_FILENAME) = true
          ∧ t.web_socket_debugger_url = ws ∧ t.url = u ∧ ws ≠ "")
    ∧ (∀ targets : List CdpTarget,
        (∀ t, t ∈ targets → ¬(t.type = "service_worker"
            ∧ strStartsWith t.url "chrome-extension://" = true
            ∧ strEndsWith t.url ("/" ++ ACTIONBOOK_SW_FILENAME) = true)) →
        find_any_extension_service_worker targets = .error noSwTargetError)
    ∧ find_any_extension_service_worker [] = .error noSwTargetError
    ∧ strStartsWith noSwTargetError
        "No Actionbook extension service_worker target found" = true := by
  refine ⟨?_, ?_, rfl, by rfl⟩
  · intro targets ws u hok
    unfold find_any_extension_service_worker at hok
    split at hok
    · rename_i t hfind
      split at hok
      · rename_i hws
        simp only [Except.ok.injEq, Prod.mk.injEq] at hok
        have hp : isActionbookSw t = true := List.find?_some hfind
        simp only [isActionbookSw, Bool.and_eq_true, beq_iff_eq] at hp
        refine ⟨t, List.mem_of_find?_eq_some hfind, hp.1.1, hp.1.2, hp.2,
          hok.1, hok.2, ?_⟩
        rw [← hok.1]
        simpa using hws
      · simp at hok
    · simp at hok
  · intro targets hno
    have hfind : targets.find? isActionbookSw = none := by
      rw [List.find?_eq_none]
      intro t ht hpred
      apply hno t ht
      simp only [isActionbookSw, Bool.and_eq_true, beq_iff_eq] at hpred
      exact ⟨hpred.1.1, hpred.1.2, hpred.2⟩
    unfold find_any_extension_service_worker
    rw [hfind]

/-- C9 witness: a singleton listing with a matching target and the error on a
listing holding only a page entry. -/
theorem C9_find_background_by_filename_witness :
    (∃ t, t ∈ [({ type := "service_worker",
                  url := "chrome-extension://abc/background.js",
                  web_socket_debugger_url := "ws://x" } : CdpTarget)]
        ∧ t.type = "service_worker"
        ∧ strStartsWith t.url "chrome-extension://" = true
        ∧ strEndsWith t.url ("/" ++ ACTIONBOOK_SW_FILENAME) = true
        ∧ t.web_socket_debugger_url = "ws://x"
        ∧ t.url = "chrome-extension://abc/background.js"
        ∧ "ws://x" ≠ "")
    ∧ find_any_extension_service_worker
        [{ type := "page", url := "chrome://extensions/",
           web_socket_debugger_url := "ws://y" }] = .error noSwTargetError := by
  constructor
  · exact C9_find_background_by_filename.1 _ "ws://x"
      "chrome-extension://abc/background.js" (by rfl)
  · exact C9_find_background_by_filename.2.1 _ (by decide)

/-- C10: when the first cli frame of the caller has no id member, the fallback
caller id is the JSON number 0, so the not-connected error, the timeout
error, the connection-lost error and the rewritten success reply all carry id
0. -/
theorem C10_missing_caller_id_is_zero (msg resp : Json) (rid : Nat)
    (h : Json.get msg "id" = none)
    (h2 : (Json.get resp "id").bind Json.asU64 = some rid) :
    cliIdOf msg = Json.num 0
    ∧ Json.get (notConnectedFrame (cliIdOf msg)) "id" = some (Json.num 0)
    ∧ Json.get (timeoutFrame (cliIdOf msg)) "id" = some (Json.num 0)
    ∧ Json.get (connLostFrame (cliIdOf msg)) "id" = some (Json.num 0)
    ∧ Json.get (rewriteReplyId resp (cliIdOf msg)) "id" = some (Json.num 0) := by
  have hc : cliIdOf msg = Json.num 0 := by simp [cliIdOf, h]
  rw [hc]
  exact ⟨rfl, rfl, rfl, rfl, get_setField_id resp (Json.num 0) rid h2⟩

/-- C10 witness: a first frame without id rewrites an extension reply with
id 42 to id 0. -/
theorem C10_missing_caller_id_is_zero_witness :
    Json.get (rewriteReplyId
        (Json.obj [("id", Json.num 42), ("result", Json.str "pong")])
        (cliIdOf (Json.obj [("method", Json.str "Extension.ping")]))) "id"
      = some (Json.num 0) := by
  exact (C10_missing_caller_id_is_zero
    (Json.obj [("method", Json.str "Extension.ping")])
    (Json.obj [("id", Json.num 42), ("result", Json.str "pong")])
    42 (by rfl) (by rfl)).2.2.2.2

end Actionbook
